import Mathlib

/-
Verification of the landstalker_gfx core slice: the pixel compositing
buffer (ImageBuffer.cpp) and the isometric coordinate transform
(BlockmapIsometric.cpp).

Shallow embedding conventions:
* C++ `uint8_t` values are modelled as `Nat` with explicit `% 256`
  truncation where the source narrows a wider intermediate.
* `std::vector<uint8_t>` is modelled as `List Nat`; iterator writes become
  `List.set` (a `List.set` out of range is a no-op, which is only reachable
  from states violating the class size invariant, where the C++ would be
  undefined).
* C++ signed `int` arithmetic is modelled as `Int`, with `/` translated to
  `Int.tdiv` (C99 division truncates toward zero).
* The `Debug(...)` logging calls are modelled by companion functions
  returning the list of messages the call emits.
-/

/-- Attribute set carried by a tile; the compositor only reads
`getAttribute(TileAttributes::ATTR_PRIORITY)`, modelled as the byte value
that call returns. -/
structure TileAttributes where
  priorityAttr : Nat
deriving DecidableEq

/-- A tile reference; `tile.Attributes()` yields its attribute set. -/
structure Tile where
  Attributes : TileAttributes
deriving DecidableEq

/-- Tileset collaborator: `getTile(tile)` returns the tile's raw 8-bit-per-
pixel row-major bitmap (a byte list; 64 bytes for an 8x8 tile). -/
structure Tileset where
  getTile : Tile → List Nat

/-- BigTile (block): `getTile(n)` returns the n-th quadrant tile. -/
structure BigTile where
  getTile : Nat → Tile

/-- Palette collaborator: per-entry colour channels and alpha, as bytes. -/
structure Palette where
  getR : Nat → Nat
  getG : Nat → Nat
  getB : Nat → Nat
  getA : Nat → Nat

/-- All-zero palette, used as the `List.getD` fallback when modelling the
unchecked `pals[pixel >> 4]` vector indexing of the source. -/
def Palette.blank : Palette :=
  { getR := fun _ => 0, getG := fun _ => 0, getB := fun _ => 0,
    getA := fun _ => 0 }

/-- State of `class ImageBuffer`: width, height, pixel raster and the
parallel priority raster (member names follow the source). -/
structure ImageBuffer where
  m_width : Nat
  m_height : Nat
  m_pixels : List Nat
  m_priority : List Nat
deriving DecidableEq

/-- Sized constructor `ImageBuffer::ImageBuffer(width, height)`: both
rasters are assigned `width * height` zero bytes. -/
def ImageBuffer.init (width height : Nat) : ImageBuffer :=
  { m_width := width
    m_height := height
    m_pixels := List.replicate (width * height) 0
    m_priority := List.replicate (width * height) 0 }

/-- The `ImageBuffer::Clear()` operation: `std::fill` of both rasters with
zero (lengths are unchanged). -/
def ImageBuffer.Clear (b : ImageBuffer) : ImageBuffer :=
  { b with
    m_pixels := List.replicate b.m_pixels.length 0
    m_priority := List.replicate b.m_priority.length 0 }

/-- The `ImageBuffer::Resize(width, height)` operation: both rasters are
reassigned to `width * height` zero bytes. -/
def ImageBuffer.Resize (b : ImageBuffer) (width height : Nat) : ImageBuffer :=
  { m_width := width
    m_height := height
    m_pixels := List.replicate (width * height) 0
    m_priority := List.replicate (width * height) 0 }

/-- One iteration of the `InsertTile` pixel loop, acting on the state.
`dest` reproduces the iterator arithmetic: the write position for index
`i` is `begin_offset + m_width * (i / 8) + i % 8`.  When
`tile_bits[i] != 0` the pixel byte becomes `tile_bits[i] | pal_bits` and
the priority byte becomes the tile's priority attribute; otherwise
nothing is written. -/
def tileStep (w begin_offset pal_bits priority : Nat) (tile_bits : List Nat)
    (acc : ImageBuffer) (i : Nat) : ImageBuffer :=
  if tile_bits.getD i 0 ≠ 0 then
    let dest := begin_offset + w * (i / 8) + i % 8
    { acc with
      m_pixels := acc.m_pixels.set dest (tile_bits.getD i 0 ||| pal_bits)
      m_priority := acc.m_priority.set dest priority }
  else acc

/-- The `ImageBuffer::InsertTile(x, y, palette_index, tile, tileset)`
operation.  If `x+7` or `y+7` reaches the buffer dimensions nothing is
written (the source logs and returns); otherwise every nonzero source
byte of `tileset.getTile(tile)` is blitted with the palette row in the
high nibble, and the parallel priority byte is set. -/
def ImageBuffer.InsertTile (b : ImageBuffer) (x y : Nat) (palette_index : Nat)
    (tile : Tile) (tileset : Tileset) : ImageBuffer :=
  if x + 7 ≥ b.m_width ∨ y + 7 ≥ b.m_height then
    b
  else
    let tile_bits := tileset.getTile tile
    let pal_bits := (palette_index <<< 4) % 256
    let begin_offset := y * b.m_width + x
    let priority := tile.Attributes.priorityAttr
    (List.range tile_bits.length).foldl
      (tileStep b.m_width begin_offset pal_bits priority tile_bits) b

/-- Messages emitted through `Debug` by an `InsertTile` call. -/
def ImageBuffer.InsertTileDebug (b : ImageBuffer) (x y : Nat) : List String :=
  if x + 7 ≥ b.m_width ∨ y + 7 ≥ b.m_height then
    ["Attempt to draw tile in out-of-range position " ++ toString x ++ ", "
      ++ toString y ++ " : The image buffer is only " ++ toString b.m_width
      ++ " x " ++ toString b.m_height ++ " pixels."]
  else []

/-- The `ImageBuffer::InsertBlock(x, y, palette_index, block, tileset)`
operation: when the flat index `(y+7)*m_width + x+7` is inside the pixel
array, the four quadrant tiles are delegated to `InsertTile` at offsets
(0,0), (+8,0), (0,+8), (+8,+8) in that order; otherwise nothing happens
(the source logs and returns). -/
def ImageBuffer.InsertBlock (b : ImageBuffer) (x y : Nat) (palette_index : Nat)
    (block : BigTile) (tileset : Tileset) : ImageBuffer :=
  if (y + 7) * b.m_width + x + 7 < b.m_pixels.length then
    ((((b.InsertTile x y palette_index (block.getTile 0) tileset).InsertTile
        (x + 8) y palette_index (block.getTile 1) tileset).InsertTile
        x (y + 8) palette_index (block.getTile 2) tileset).InsertTile
        (x + 8) (y + 8) palette_index (block.getTile 3) tileset)
  else b

/-- Messages emitted through `Debug` by an `InsertBlock` call (not counting
those of the delegated `InsertTile` calls). -/
def ImageBuffer.InsertBlockDebug (b : ImageBuffer) (x y : Nat) : List String :=
  if (y + 7) * b.m_width + x + 7 < b.m_pixels.length then []
  else ["Coordinates out of range"]

/-- The `ImageBuffer::GetRGB(pals)` export: for each pixel byte in raster
order, three bytes `getR`, `getG`, `getB` of palette row `pixel >> 4` at
local index `pixel & 0x0F`. -/
def ImageBuffer.GetRGB (b : ImageBuffer) (pals : List Palette) : List Nat :=
  b.m_pixels.flatMap (fun pixel =>
    [(pals.getD (pixel >>> 4) Palette.blank).getR (pixel &&& 15),
     (pals.getD (pixel >>> 4) Palette.blank).getG (pixel &&& 15),
     (pals.getD (pixel >>> 4) Palette.blank).getB (pixel &&& 15)])

/-- The `ImageBuffer::GetAlpha(pals, low_pri_max_opacity,
high_pri_max_opacity)` export: the source walks the pixel raster with the
priority raster advanced in lockstep (modelled by `List.zip`), emitting
`min(max_opacity, alpha)` where `max_opacity` is picked by the priority
byte. -/
def ImageBuffer.GetAlpha (b : ImageBuffer) (pals : List Palette)
    (low_pri_max_opacity high_pri_max_opacity : Nat) : List Nat :=
  (b.m_pixels.zip b.m_priority).map (fun pp =>
    let alpha := (pals.getD (pp.1 >>> 4) Palette.blank).getA (pp.1 &&& 15)
    let max_opacity :=
      if pp.2 ≠ 0 then high_pri_max_opacity else low_pri_max_opacity
    min max_opacity alpha)

/-- Operations of the `ImageBuffer` lifecycle, for stating invariants over
arbitrary call sequences. -/
inductive BufferOp where
  | clear : BufferOp
  | resize : Nat → Nat → BufferOp
  | insertTile : Nat → Nat → Nat → Tile → Tileset → BufferOp
  | insertBlock : Nat → Nat → Nat → BigTile → Tileset → BufferOp
  | getRGB : List Palette → BufferOp
  | getAlpha : List Palette → Nat → Nat → BufferOp
  | writePNG : BufferOp

/-- Effect of one operation on the buffer state.  `GetRGB`/`GetAlpha` only
fill the `m_rgb`/`m_alpha` scratch caches and `WritePNG` only reads
`m_pixels`; none of the three touches `m_width`, `m_height`, `m_pixels`
or `m_priority`, so on this state they are the identity. -/
def applyOp (b : ImageBuffer) : BufferOp → ImageBuffer
  | .clear => b.Clear
  | .resize w h => b.Resize w h
  | .insertTile x y p t ts => b.InsertTile x y p t ts
  | .insertBlock x y p blk ts => b.InsertBlock x y p blk ts
  | .getRGB _ => b
  | .getAlpha _ _ _ => b
  | .writePNG => b

/-- Size invariant of the class: both rasters hold exactly
`m_width * m_height` bytes. -/
def sizeInv (b : ImageBuffer) : Prop :=
  b.m_pixels.length = b.m_width * b.m_height ∧
  b.m_priority.length = b.m_width * b.m_height

/-- Transparency/priority invariant: wherever the pixel byte is zero, the
priority byte is zero as well. -/
def zeroPriInv (b : ImageBuffer) : Prop :=
  ∀ i, b.m_pixels.getD i 0 = 0 → b.m_priority.getD i 0 = 0

/-- A tileset whose bitmaps only contain 4-bit values (0-15). -/
def tilesetNibbleOnly (ts : Tileset) : Prop :=
  ∀ t, ∀ v ∈ ts.getTile t, v < 16

/-- Restriction of `BufferOp` to the four mutating draw/reset operations,
with 4-bit-clean tilesets, as in the invariant claim. -/
def opDrawOnly : BufferOp → Prop
  | .clear => True
  | .resize _ _ => True
  | .insertTile _ _ _ _ ts => tilesetNibbleOnly ts
  | .insertBlock _ _ _ _ ts => tilesetNibbleOnly ts
  | .getRGB _ => False
  | .getAlpha _ _ _ => False
  | .writePNG => False

/-- Screen-space pixel point (`wxPoint`), with C `int` coordinates. -/
structure wxPoint where
  x : Int
  y : Int
deriving DecidableEq

/-- Logical 2-D tile coordinate (`TilePoint`).  Modelled from the spec:
the struct itself is declared outside the excerpt; the transform treats
its fields as integer grid coordinates (the source casts the computed
`int` values with `static_cast<size_t>`, the identity on the
nonnegative in-grid results considered here). -/
structure TilePoint where
  x : Int
  y : Int
deriving DecidableEq

/-- Logical 3-D tile coordinate (`TilePoint3D`) with elevation `z`. -/
structure TilePoint3D where
  x : Int
  y : Int
  z : Int
deriving DecidableEq

/-- State of `BlockmapIsometric`.  Modelled from the spec: the
`Blockmap2D` base class and the `TILEWIDTH`/`TILEHEIGHT` constants live in
headers outside the excerpt; per spec section 4.2 the transform is
parameterized by origin `(left, top)`, tile pixel dimensions
`(tileWidth, tileHeight)` and the grid extents, so `GetLeft()`,
`GetTop()`, `GetWidth()`, `GetHeight()`, `TILEWIDTH` and `TILEHEIGHT`
become the fields below. -/
structure BlockmapIsometric where
  width : Nat
  height : Nat
  left : Nat
  top : Nat
  tileWidth : Nat
  tileHeight : Nat

/-- The `BlockmapIsometric::XYToTilePoint(point)` inverse projection,
with C `int` division (`Int.tdiv`, truncation toward zero). -/
def BlockmapIsometric.XYToTilePoint (m : BlockmapIsometric)
    (point : wxPoint) : TilePoint :=
  let xgrid := Int.tdiv (point.x - (m.left : Int)) (m.tileWidth : Int)
  let ygrid := Int.tdiv (2 * (point.y - (m.top : Int))) (m.tileHeight : Int)
  { x := Int.tdiv (ygrid + xgrid - (m.height : Int) + 1) 2
    y := Int.tdiv (ygrid - xgrid + (m.height : Int) - 1) 2 }

/-- The `BlockmapIsometric::ToXYPoint(point)` forward projection. -/
def BlockmapIsometric.ToXYPoint (m : BlockmapIsometric)
    (point : TilePoint) : wxPoint :=
  { x := (point.x - point.y + ((m.height : Int) - 1)) * (m.tileWidth : Int)
          + (m.left : Int)
    y := Int.tdiv ((point.x + point.y) * (m.tileHeight : Int)) 2
          + (m.top : Int) }

/-- The `BlockmapIsometric::ToXYPoint3D(point)` forward projection with
elevation. -/
def BlockmapIsometric.ToXYPoint3D (m : BlockmapIsometric)
    (point : TilePoint3D) : wxPoint :=
  { x := (point.x - point.y + ((m.height : Int) - 1)) * (m.tileWidth : Int)
          + (m.left : Int)
    y := Int.tdiv ((point.x + point.y - point.z * 2) * (m.tileHeight : Int)) 2
          + (m.top : Int) }

/-- The `BlockmapIsometric::GetBitmapWidth()` canvas size. -/
def BlockmapIsometric.GetBitmapWidth (m : BlockmapIsometric) : Nat :=
  (m.width + m.height) * m.tileWidth

/-- The `BlockmapIsometric::GetBitmapHeight()` canvas size. -/
def BlockmapIsometric.GetBitmapHeight (m : BlockmapIsometric) : Nat :=
  (m.width + m.height + 1) * m.tileHeight / 2

lemma getD_set_self (l : List Nat) (i a : Nat) (h : i < l.length) :
    (l.set i a).getD i 0 = a := by
  simp [List.getD_eq_getElem?_getD, List.getElem?_set, h]

lemma getD_set_ne (l : List Nat) (i j a : Nat) (h : i ≠ j) :
    (l.set i a).getD j 0 = l.getD j 0 := by
  simp [List.getD_eq_getElem?_getD, List.getElem?_set, h]

lemma getD_replicate_zero (n q : Nat) : (List.replicate n 0).getD q 0 = 0 := by
  simp only [List.getD_eq_getElem?_getD, List.getElem?_replicate]
  split <;> rfl

lemma lor_ne_zero_left {a : Nat} (b : Nat) (h : a ≠ 0) : a ||| b ≠ 0 := by
  intro hz
  apply h
  refine Nat.eq_of_testBit_eq fun k => ?_
  have hb := congrArg (fun n => Nat.testBit n k) hz
  simp only [Nat.testBit_lor, Nat.zero_testBit, Bool.or_eq_false_iff] at hb
  simp [hb.1]

lemma div_mod_decomp_inj (w a r c s : Nat) (hw : 0 < w) (hr : r < w)
    (hs : s < w) (h : w * a + r = w * c + s) : a = c ∧ r = s := by
  have h1 : (w * a + r) / w = a := by
    rw [Nat.mul_add_div hw, Nat.div_eq_of_lt hr, Nat.add_zero]
  have h2 : (w * c + s) / w = c := by
    rw [Nat.mul_add_div hw, Nat.div_eq_of_lt hs, Nat.add_zero]
  have hac : a = c := by rw [← h1, h, h2]
  subst hac
  exact ⟨rfl, by omega⟩

lemma tileDest_inj (w beg i j : Nat) (hw : 8 ≤ w) (hi : i < 64) (hj : j < 64)
    (h : beg + w * (i / 8) + i % 8 = beg + w * (j / 8) + j % 8) : i = j := by
  have h' : w * (i / 8) + i % 8 = w * (j / 8) + j % 8 := by omega
  have hd := div_mod_decomp_inj w (i / 8) (i % 8) (j / 8) (j % 8) (by omega)
    (by omega) (by omega) h'
  omega

lemma tileDest_lt (w h x y i : Nat) (hx : x + 7 < w) (hy : y + 7 < h)
    (hi : i < 64) : y * w + x + w * (i / 8) + i % 8 < w * h := by
  have key : y * w + w * (i / 8) + w ≤ w * h := by
    have hstep : y + i / 8 + 1 ≤ h := by omega
    calc y * w + w * (i / 8) + w = w * (y + i / 8 + 1) := by ring
    _ ≤ w * h := Nat.mul_le_mul_left w hstep
  omega

lemma tileStep_m_width (w beg pal pri : Nat) (bits : List Nat)
    (acc : ImageBuffer) (i : Nat) :
    (tileStep w beg pal pri bits acc i).m_width = acc.m_width := by
  unfold tileStep; split <;> rfl

lemma tileStep_m_height (w beg pal pri : Nat) (bits : List Nat)
    (acc : ImageBuffer) (i : Nat) :
    (tileStep w beg pal pri bits acc i).m_height = acc.m_height := by
  unfold tileStep; split <;> rfl

lemma tileStep_pixels_length (w beg pal pri : Nat) (bits : List Nat)
    (acc : ImageBuffer) (i : Nat) :
    (tileStep w beg pal pri bits acc i).m_pixels.length
      = acc.m_pixels.length := by
  unfold tileStep; split <;> simp

lemma tileStep_priority_length (w beg pal pri : Nat) (bits : List Nat)
    (acc : ImageBuffer) (i : Nat) :
    (tileStep w beg pal pri bits acc i).m_priority.length
      = acc.m_priority.length := by
  unfold tileStep; split <;> simp

lemma foldl_tileStep_shape (w beg pal pri : Nat) (bits : List Nat)
    (is : List Nat) : ∀ (b : ImageBuffer),
    (is.foldl (tileStep w beg pal pri bits) b).m_width = b.m_width ∧
    (is.foldl (tileStep w beg pal pri bits) b).m_height = b.m_height ∧
    (is.foldl (tileStep w beg pal pri bits) b).m_pixels.length
      = b.m_pixels.length ∧
    (is.foldl (tileStep w beg pal pri bits) b).m_priority.length
      = b.m_priority.length := by
  induction is with
  | nil => exact fun b => ⟨rfl, rfl, rfl, rfl⟩
  | cons i is ih =>
    intro b
    rw [List.foldl_cons]
    obtain ⟨h1, h2, h3, h4⟩ := ih (tileStep w beg pal pri bits b i)
    refine ⟨?_, ?_, ?_, ?_⟩
    · rw [h1, tileStep_m_width]
    · rw [h2, tileStep_m_height]
    · rw [h3, tileStep_pixels_length]
    · rw [h4, tileStep_priority_length]

lemma foldl_tileStep_frame (w beg pal pri : Nat) (bits : List Nat) (q : Nat)
    (is : List Nat) : ∀ (b : ImageBuffer),
    (∀ i ∈ is, bits.getD i 0 ≠ 0 → beg + w * (i / 8) + i % 8 ≠ q) →
    (is.foldl (tileStep w beg pal pri bits) b).m_pixels.getD q 0
      = b.m_pixels.getD q 0 ∧
    (is.foldl (tileStep w beg pal pri bits) b).m_priority.getD q 0
      = b.m_priority.getD q 0 := by
  induction is with
  | nil => exact fun b _ => ⟨rfl, rfl⟩
  | cons i is ih =>
    intro b hnot
    rw [List.foldl_cons]
    obtain ⟨h1, h2⟩ := ih (tileStep w beg pal pri bits b i)
      (fun i' hi' => hnot i' (List.mem_cons_of_mem _ hi'))
    rw [h1, h2]
    unfold tileStep
    by_cases hbit : bits.getD i 0 ≠ 0
    · have hne : beg + w * (i / 8) + i % 8 ≠ q :=
        hnot i (List.mem_cons_self _ _) hbit
      simp only [hbit, if_true, ne_eq, not_false_iff]
      exact ⟨getD_set_ne _ _ _ _ hne, getD_set_ne _ _ _ _ hne⟩
    · simp only [hbit, if_false, ne_eq, not_true]
      simp [hbit]

lemma foldl_tileStep_write (w beg pal pri : Nat) (bits : List Nat) (j : Nat)
    (is : List Nat) : ∀ (b : ImageBuffer),
    j ∈ is →
    bits.getD j 0 ≠ 0 →
    beg + w * (j / 8) + j % 8 < b.m_pixels.length →
    beg + w * (j / 8) + j % 8 < b.m_priority.length →
    (∀ i ∈ is, bits.getD i 0 ≠ 0 →
        beg + w * (i / 8) + i % 8 = beg + w * (j / 8) + j % 8 → i = j) →
    (is.foldl (tileStep w beg pal pri bits) b).m_pixels.getD
        (beg + w * (j / 8) + j % 8) 0 = bits.getD j 0 ||| pal ∧
    (is.foldl (tileStep w beg pal pri bits) b).m_priority.getD
        (beg + w * (j / 8) + j % 8) 0 = pri := by
  induction is with
  | nil => intro b hj; exact absurd hj (List.not_mem_nil j)
  | cons i is ih =>
    intro b hj hbit hlp hlq huniq
    rw [List.foldl_cons]
    by_cases hjis : j ∈ is
    · exact ih (tileStep w beg pal pri bits b i) hjis hbit
        (by rw [tileStep_pixels_length]; exact hlp)
        (by rw [tileStep_priority_length]; exact hlq)
        (fun i' hi' => huniq i' (List.mem_cons_of_mem _ hi'))
    · have hij : i = j := by
        rcases List.mem_cons.mp hj with h | h
        · exact h.symm
        · exact absurd h hjis
      subst hij
      have hframe := foldl_tileStep_frame w beg pal pri bits
        (beg + w * (i / 8) + i % 8) is (tileStep w beg pal pri bits b i)
        (fun i' hi' hbit' heq => hjis (huniq i' (List.mem_cons_of_mem _ hi')
          hbit' heq ▸ hi'))
      rw [hframe.1, hframe.2]
      unfold tileStep
      simp only [hbit, if_true, ne_eq, not_false_iff]
      exact ⟨getD_set_self _ _ _ hlp, getD_set_self _ _ _ hlq⟩

lemma insertTile_oob (b : ImageBuffer) (x y p : Nat) (tile : Tile)
    (ts : Tileset) (h : x + 7 ≥ b.m_width ∨ y + 7 ≥ b.m_height) :
    b.InsertTile x y p tile ts = b := by
  unfold ImageBuffer.InsertTile
  rw [if_pos h]

lemma insertTile_shape (b : ImageBuffer) (x y p : Nat) (tile : Tile)
    (ts : Tileset) :
    (b.InsertTile x y p tile ts).m_width = b.m_width ∧
    (b.InsertTile x y p tile ts).m_height = b.m_height ∧
    (b.InsertTile x y p tile ts).m_pixels.length = b.m_pixels.length ∧
    (b.InsertTile x y p tile ts).m_priority.length = b.m_priority.length := by
  unfold ImageBuffer.InsertTile
  split
  · exact ⟨rfl, rfl, rfl, rfl⟩
  · exact foldl_tileStep_shape _ _ _ _ _ _ b

lemma insertTile_in_range (b : ImageBuffer) (x y p : Nat) (tile : Tile)
    (ts : Tileset) (h : ¬(x + 7 ≥ b.m_width ∨ y + 7 ≥ b.m_height)) :
    b.InsertTile x y p tile ts =
      (List.range (ts.getTile tile).length).foldl
        (tileStep b.m_width (y * b.m_width + x) ((p <<< 4) % 256)
          tile.Attributes.priorityAttr (ts.getTile tile)) b := by
  unfold ImageBuffer.InsertTile
  rw [if_neg h]

/-- C4: an `InsertTile` call with `x+7 >= W` or `y+7 >= H` performs no
buffer mutation at all (the state is equal before and after) and the
out-of-range condition is reported through the `Debug` logging channel. -/
theorem insertTile_bounds_rejection (b : ImageBuffer) (x y p : Nat)
    (tile : Tile) (ts : Tileset)
    (h : x + 7 ≥ b.m_width ∨ y + 7 ≥ b.m_height) :
    b.InsertTile x y p tile ts = b ∧ b.InsertTileDebug x y ≠ [] := by
  refine ⟨insertTile_oob b x y p tile ts h, ?_⟩
  unfold ImageBuffer.InsertTileDebug
  rw [if_pos h]
  simp

def wTile : Tile := ⟨⟨1⟩⟩

def wTileset : Tileset := ⟨fun _ => List.replicate 64 1⟩

def wBlock : BigTile := ⟨fun _ => wTile⟩

/-- Witness for C4 at a 4x4 buffer with x = y = 0. -/
theorem insertTile_bounds_rejection_witness :
    (0 + 7 ≥ (ImageBuffer.init 4 4).m_width ∨
      0 + 7 ≥ (ImageBuffer.init 4 4).m_height) ∧
    ((ImageBuffer.init 4 4).InsertTile 0 0 0 wTile wTileset
        = ImageBuffer.init 4 4 ∧
      (ImageBuffer.init 4 4).InsertTileDebug 0 0 ≠ []) :=
  ⟨Or.inl (by decide),
    insertTile_bounds_rejection (ImageBuffer.init 4 4) 0 0 0 wTile wTileset
      (Or.inl (by decide))⟩

/-- C2: under the class size invariant, `InsertBlock` leaves the buffer in
exactly the state produced by the four sequential `InsertTile` calls at
offsets (0,0), (+8,0), (0,+8), (+8,+8) with the block's quadrant tiles in
that order. -/
theorem insertBlock_eq_four_insertTiles (b : ImageBuffer) (x y p : Nat)
    (block : BigTile) (ts : Tileset)
    (hlen : b.m_pixels.length = b.m_width * b.m_height) :
    b.InsertBlock x y p block ts =
      (((b.InsertTile x y p (block.getTile 0) ts).InsertTile
        (x + 8) y p (block.getTile 1) ts).InsertTile
        x (y + 8) p (block.getTile 2) ts).InsertTile
        (x + 8) (y + 8) p (block.getTile 3) ts := by
  unfold ImageBuffer.InsertBlock
  split
  · rfl
  · rename_i hguard
    rw [hlen] at hguard
    have hfit : ∀ u v : Nat, x + 7 ≤ u + 7 → y + 7 ≤ v + 7 →
        ¬(u + 7 < b.m_width ∧ v + 7 < b.m_height) := by
      intro u v hu hv ⟨hu', hv'⟩
      apply hguard
      calc (y + 7) * b.m_width + x + 7
          < (y + 7) * b.m_width + b.m_width := by omega
        _ = (y + 8) * b.m_width := by ring
        _ ≤ b.m_height * b.m_width := Nat.mul_le_mul_right _ (by omega)
        _ = b.m_width * b.m_height := Nat.mul_comm _ _
    have h0 : x + 7 ≥ b.m_width ∨ y + 7 ≥ b.m_height := by
      have := hfit x y (by omega) (by omega); omega
    have h1 : x + 8 + 7 ≥ b.m_width ∨ y + 7 ≥ b.m_height := by
      have := hfit (x + 8) y (by omega) (by omega); omega
    have h2 : x + 7 ≥ b.m_width ∨ y + 8 + 7 ≥ b.m_height := by
      have := hfit x (y + 8) (by omega) (by omega); omega
    have h3 : x + 8 + 7 ≥ b.m_width ∨ y + 8 + 7 ≥ b.m_height := by
      have := hfit (x + 8) (y + 8) (by omega) (by omega); omega
    rw [insertTile_oob b x y p _ ts h0, insertTile_oob b (x + 8) y p _ ts h1,
      insertTile_oob b x (y + 8) p _ ts h2,
      insertTile_oob b (x + 8) (y + 8) p _ ts h3]

/-- Witness for C2 on an 8x8 buffer. -/
theorem insertBlock_eq_four_insertTiles_witness :
    (ImageBuffer.init 8 8).m_pixels.length
        = (ImageBuffer.init 8 8).m_width * (ImageBuffer.init 8 8).m_height ∧
    (ImageBuffer.init 8 8).InsertBlock 0 0 1 wBlock wTileset =
      ((((ImageBuffer.init 8 8).InsertTile 0 0 1 (wBlock.getTile 0)
          wTileset).InsertTile (0 + 8) 0 1 (wBlock.getTile 1)
          wTileset).InsertTile 0 (0 + 8) 1 (wBlock.getTile 2)
          wTileset).InsertTile (0 + 8) (0 + 8) 1 (wBlock.getTile 3) wTileset :=
  ⟨by decide,
    insertBlock_eq_four_insertTiles (ImageBuffer.init 8 8) 0 0 1 wBlock
      wTileset (by decide)⟩

set_option maxRecDepth 4000 in
/-- Counterexample to C5 as stated: on a 17x8 buffer, the block insertion
at (2, 0) has a 16x16 footprint whose rightmost column (x = 2+15 = 17)
lies outside the buffer, yet the guard `(y+7)*W + x+7 < size` passes and
the top-left quadrant tile is drawn: pixel (2, 0) changes from 0 to 1. -/
theorem insertBlock_clipped_footprint_cex :
    2 + 15 ≥ (ImageBuffer.init 17 8).m_width ∧
    ((ImageBuffer.init 17 8).InsertBlock 2 0 0 wBlock
        wTileset).m_pixels.getD 2 0 = 1 ∧
    (ImageBuffer.init 17 8).m_pixels.getD 2 0 = 0 := by
  refine ⟨by decide, by decide, by decide⟩

/-- C5 (amended): the skip condition of `InsertBlock` is that the flat
index `(y+7)*W + x+7` (the bottom-right pixel of the top-left quadrant
tile) is not a valid index into the pixel array; in that case the whole
block insertion is skipped, the buffer is left completely unmodified, and
the condition is reported through the `Debug` logging channel. -/
theorem insertBlock_guard_skip (b : ImageBuffer) (x y p : Nat)
    (block : BigTile) (ts : Tileset)
    (h : ¬((y + 7) * b.m_width + x + 7 < b.m_pixels.length)) :
    b.InsertBlock x y p block ts = b ∧ b.InsertBlockDebug x y ≠ [] := by
  unfold ImageBuffer.InsertBlock ImageBuffer.InsertBlockDebug
  rw [if_neg h, if_neg h]
  exact ⟨rfl, by simp⟩

/-- Witness for the amended C5 on a 4x4 buffer. -/
theorem insertBlock_guard_skip_witness :
    ¬((0 + 7) * (ImageBuffer.init 4 4).m_width + 0 + 7
        < (ImageBuffer.init 4 4).m_pixels.length) ∧
    ((ImageBuffer.init 4 4).InsertBlock 0 0 0 wBlock wTileset
        = ImageBuffer.init 4 4 ∧
      (ImageBuffer.init 4 4).InsertBlockDebug 0 0 ≠ []) :=
  ⟨by decide,
    insertBlock_guard_skip (ImageBuffer.init 4 4) 0 0 0 wBlock wTileset
      (by decide)⟩

/-- C1: for an in-range `InsertTile` (with the class size invariant and a
64-byte tile bitmap), every source byte index `i < 64` maps to buffer
position `(y + i/8)*W + (x + i%8)`; a nonzero source byte sets the pixel
byte there to `rawValue | (paletteIndex << 4)` and the priority byte to
the tile's priority attribute, while a zero source byte leaves both the
pixel byte and the priority byte exactly as they were. -/
theorem insertTile_compositing_rule (b : ImageBuffer) (x y p : Nat)
    (tile : Tile) (ts : Tileset)
    (hx : x + 7 < b.m_width) (hy : y + 7 < b.m_height)
    (hpx : b.m_pixels.length = b.m_width * b.m_height)
    (hpr : b.m_priority.length = b.m_width * b.m_height)
    (hbits : (ts.getTile tile).length = 64)
    (i : Nat) (hi : i < 64) :
    (((ts.getTile tile).getD i 0 ≠ 0 →
      (b.InsertTile x y p tile ts).m_pixels.getD
          ((y + i / 8) * b.m_width + (x + i % 8)) 0
        = (ts.getTile tile).getD i 0 ||| ((p <<< 4) % 256) ∧
      (b.InsertTile x y p tile ts).m_priority.getD
          ((y + i / 8) * b.m_width + (x + i % 8)) 0
        = tile.Attributes.priorityAttr) ∧
    ((ts.getTile tile).getD i 0 = 0 →
      (b.InsertTile x y p tile ts).m_pixels.getD
          ((y + i / 8) * b.m_width + (x + i % 8)) 0
        = b.m_pixels.getD ((y + i / 8) * b.m_width + (x + i % 8)) 0 ∧
      (b.InsertTile x y p tile ts).m_priority.getD
          ((y + i / 8) * b.m_width + (x + i % 8)) 0
        = b.m_priority.getD ((y + i / 8) * b.m_width + (x + i % 8)) 0)) := by
  have hw8 : 8 ≤ b.m_width := by omega
  have hdest : (y + i / 8) * b.m_width + (x + i % 8)
      = y * b.m_width + x + b.m_width * (i / 8) + i % 8 := by ring
  have hguard : ¬(x + 7 ≥ b.m_width ∨ y + 7 ≥ b.m_height) := by omega
  rw [hdest, insertTile_in_range b x y p tile ts hguard, hbits]
  constructor
  · intro hnz
    exact foldl_tileStep_write b.m_width (y * b.m_width + x) ((p <<< 4) % 256)
      tile.Attributes.priorityAttr (ts.getTile tile) i (List.range 64) b
      (List.mem_range.mpr hi) hnz
      (by rw [hpx]; exact tileDest_lt _ _ _ _ _ hx hy hi)
      (by rw [hpr]; exact tileDest_lt _ _ _ _ _ hx hy hi)
      (fun i' hi' _ heq =>
        tileDest_inj b.m_width (y * b.m_width + x) i' i hw8
          (List.mem_range.mp hi') hi heq)
  · intro hz
    exact foldl_tileStep_frame b.m_width (y * b.m_width + x) ((p <<< 4) % 256)
      tile.Attributes.priorityAttr (ts.getTile tile)
      (y * b.m_width + x + b.m_width * (i / 8) + i % 8) (List.range 64) b
      (fun i' hi' hnz' heq =>
        hnz' (tileDest_inj b.m_width (y * b.m_width + x) i' i hw8
          (List.mem_range.mp hi') hi heq ▸ hz))

def c1Tileset : Tileset :=
  ⟨fun _ => 0 :: List.replicate 63 3⟩

/-- Witness for C1 on an 8x8 buffer with palette row 2 and a bitmap whose
byte 0 is zero and whose byte 1 is 3; instantiated at source index 1. -/
theorem insertTile_compositing_rule_witness :
    (0 + 7 < (ImageBuffer.init 8 8).m_width ∧
      0 + 7 < (ImageBuffer.init 8 8).m_height ∧
      (ImageBuffer.init 8 8).m_pixels.length
        = (ImageBuffer.init 8 8).m_width * (ImageBuffer.init 8 8).m_height ∧
      (ImageBuffer.init 8 8).m_priority.length
        = (ImageBuffer.init 8 8).m_width * (ImageBuffer.init 8 8).m_height ∧
      (c1Tileset.getTile wTile).length = 64 ∧ 1 < 64) ∧
    (((c1Tileset.getTile wTile).getD 1 0 ≠ 0 →
      ((ImageBuffer.init 8 8).InsertTile 0 0 2 wTile c1Tileset).m_pixels.getD
          ((0 + 1 / 8) * (ImageBuffer.init 8 8).m_width + (0 + 1 % 8)) 0
        = (c1Tileset.getTile wTile).getD 1 0 ||| ((2 <<< 4) % 256) ∧
      ((ImageBuffer.init 8 8).InsertTile 0 0 2 wTile
          c1Tileset).m_priority.getD
          ((0 + 1 / 8) * (ImageBuffer.init 8 8).m_width + (0 + 1 % 8)) 0
        = wTile.Attributes.priorityAttr) ∧
    ((c1Tileset.getTile wTile).getD 1 0 = 0 →
      ((ImageBuffer.init 8 8).InsertTile 0 0 2 wTile c1Tileset).m_pixels.getD
          ((0 + 1 / 8) * (ImageBuffer.init 8 8).m_width + (0 + 1 % 8)) 0
        = (ImageBuffer.init 8 8).m_pixels.getD
            ((0 + 1 / 8) * (ImageBuffer.init 8 8).m_width + (0 + 1 % 8)) 0 ∧
      ((ImageBuffer.init 8 8).InsertTile 0 0 2 wTile
          c1Tileset).m_priority.getD
          ((0 + 1 / 8) * (ImageBuffer.init 8 8).m_width + (0 + 1 % 8)) 0
        = (ImageBuffer.init 8 8).m_priority.getD
            ((0 + 1 / 8) * (ImageBuffer.init 8 8).m_width + (0 + 1 % 8)) 0)) :=
  ⟨⟨by decide, by decide, by decide, by decide, by decide, by decide⟩,
    insertTile_compositing_rule (ImageBuffer.init 8 8) 0 0 2 wTile c1Tileset
      (by decide) (by decide) (by decide) (by decide) (by decide) 1
      (by decide)⟩

lemma sizeInv_init (w h : Nat) : sizeInv (ImageBuffer.init w h) := by
  constructor <;> simp [ImageBuffer.init]

lemma sizeInv_clear (b : ImageBuffer) (h : sizeInv b) : sizeInv b.Clear := by
  obtain ⟨h1, h2⟩ := h
  constructor <;> simp [ImageBuffer.Clear, h1, h2]

lemma sizeInv_resize (b : ImageBuffer) (w h : Nat) :
    sizeInv (b.Resize w h) := by
  constructor <;> simp [ImageBuffer.Resize]

lemma sizeInv_insertTile (b : ImageBuffer) (x y p : Nat) (tile : Tile)
    (ts : Tileset) (h : sizeInv b) : sizeInv (b.InsertTile x y p tile ts) := by
  obtain ⟨s1, s2, s3, s4⟩ := insertTile_shape b x y p tile ts
  exact ⟨by rw [s3, s1, s2]; exact h.1, by rw [s4, s1, s2]; exact h.2⟩

lemma sizeInv_insertBlock (b : ImageBuffer) (x y p : Nat) (blk : BigTile)
    (ts : Tileset) (h : sizeInv b) :
    sizeInv (b.InsertBlock x y p blk ts) := by
  unfold ImageBuffer.InsertBlock
  split
  · exact sizeInv_insertTile _ _ _ _ _ _ (sizeInv_insertTile _ _ _ _ _ _
      (sizeInv_insertTile _ _ _ _ _ _ (sizeInv_insertTile _ _ _ _ _ _ h)))
  · exact h

lemma sizeInv_applyOp (b : ImageBuffer) (op : BufferOp) (h : sizeInv b) :
    sizeInv (applyOp b op) := by
  cases op with
  | clear => exact sizeInv_clear b h
  | resize w hh => exact sizeInv_resize b w hh
  | insertTile x y p t ts => exact sizeInv_insertTile b x y p t ts h
  | insertBlock x y p blk ts => exact sizeInv_insertBlock b x y p blk ts h
  | getRGB _ => exact h
  | getAlpha _ _ _ => exact h
  | writePNG => exact h

lemma sizeInv_foldl (ops : List BufferOp) : ∀ (b : ImageBuffer),
    sizeInv b → sizeInv (ops.foldl applyOp b) := by
  induction ops with
  | nil => exact fun b h => h
  | cons op ops ih =>
    intro b h
    rw [List.foldl_cons]
    exact ih (applyOp b op) (sizeInv_applyOp b op h)

/-- C8: starting from the sized constructor, after any sequence of
operations (Clear, Resize, InsertTile, InsertBlock, GetRGB, GetAlpha,
WritePNG) the pixel raster and the priority raster both hold exactly
`m_width * m_height` bytes — the two rasters are never left with
different sizes. -/
theorem raster_size_invariant (w h : Nat) (ops : List BufferOp) :
    sizeInv (ops.foldl applyOp (ImageBuffer.init w h)) :=
  sizeInv_foldl ops (ImageBuffer.init w h) (sizeInv_init w h)

lemma getD_oob (l : List Nat) (i : Nat) (h : l.length ≤ i) :
    l.getD i 0 = 0 := by
  simp [List.getD_eq_getElem?_getD, List.getElem?_eq_none h]

lemma tileStep_zeroPri (w beg pal pri : Nat) (bits : List Nat)
    (acc : ImageBuffer) (i : Nat)
    (hlen : acc.m_pixels.length = acc.m_priority.length)
    (hinv : ∀ q, acc.m_pixels.getD q 0 = 0 → acc.m_priority.getD q 0 = 0) :
    ∀ q, (tileStep w beg pal pri bits acc i).m_pixels.getD q 0 = 0 →
      (tileStep w beg pal pri bits acc i).m_priority.getD q 0 = 0 := by
  intro q
  unfold tileStep
  by_cases hbit : bits.getD i 0 ≠ 0
  · rw [if_pos hbit]
    dsimp only
    by_cases hq : beg + w * (i / 8) + i % 8 = q
    · subst hq
      by_cases hlt : beg + w * (i / 8) + i % 8 < acc.m_pixels.length
      · rw [getD_set_self _ _ _ hlt]
        intro hzero
        exact absurd hzero (lor_ne_zero_left _ hbit)
      · intro _
        apply getD_oob
        rw [List.length_set]
        omega
    · rw [getD_set_ne _ _ _ _ fun hh => hq hh,
        getD_set_ne _ _ _ _ fun hh => hq hh]
      exact hinv q
  · rw [if_neg hbit]
    exact hinv q

lemma foldl_tileStep_zeroPri (w beg pal pri : Nat) (bits : List Nat)
    (is : List Nat) : ∀ (acc : ImageBuffer),
    acc.m_pixels.length = acc.m_priority.length →
    (∀ q, acc.m_pixels.getD q 0 = 0 → acc.m_priority.getD q 0 = 0) →
    ∀ q, (is.foldl (tileStep w beg pal pri bits) acc).m_pixels.getD q 0 = 0 →
      (is.foldl (tileStep w beg pal pri bits) acc).m_priority.getD q 0 = 0 := by
  induction is with
  | nil => exact fun acc _ hinv => hinv
  | cons i is ih =>
    intro acc hlen hinv
    rw [List.foldl_cons]
    exact ih (tileStep w beg pal pri bits acc i)
      (by rw [tileStep_pixels_length, tileStep_priority_length]; exact hlen)
      (tileStep_zeroPri w beg pal pri bits acc i hlen hinv)

lemma zeroPriInv_replicate (b : ImageBuffer) (n m : Nat)
    (h : b.m_priority = List.replicate m 0) : zeroPriInv b := by
  intro i _
  rw [h]
  exact getD_replicate_zero m i

lemma zeroPriInv_insertTile (b : ImageBuffer) (x y p : Nat) (tile : Tile)
    (ts : Tileset) (hlen : b.m_pixels.length = b.m_priority.length)
    (h : zeroPriInv b) : zeroPriInv (b.InsertTile x y p tile ts) := by
  unfold ImageBuffer.InsertTile
  split
  · exact h
  · exact foldl_tileStep_zeroPri _ _ _ _ _ _ b hlen h

lemma zeroPriInv_insertBlock (b : ImageBuffer) (x y p : Nat) (blk : BigTile)
    (ts : Tileset) (hsz : sizeInv b) (h : zeroPriInv b) :
    zeroPriInv (b.InsertBlock x y p blk ts) := by
  have hs0 := sizeInv_insertTile b x y p (blk.getTile 0) ts hsz
  have hs1 := sizeInv_insertTile _ (x + 8) y p (blk.getTile 1) ts hs0
  have hs2 := sizeInv_insertTile _ x (y + 8) p (blk.getTile 2) ts hs1
  unfold ImageBuffer.InsertBlock
  split
  · exact zeroPriInv_insertTile _ _ _ _ _ _ (by rw [hs2.1, hs2.2])
      (zeroPriInv_insertTile _ _ _ _ _ _ (by rw [hs1.1, hs1.2])
        (zeroPriInv_insertTile _ _ _ _ _ _ (by rw [hs0.1, hs0.2])
          (zeroPriInv_insertTile _ _ _ _ _ _ (by rw [hsz.1, hsz.2]) h)))
  · exact h

lemma zeroPriInv_applyOp (b : ImageBuffer) (op : BufferOp) (hsz : sizeInv b)
    (h : zeroPriInv b) : zeroPriInv (applyOp b op) := by
  cases op with
  | clear => exact zeroPriInv_replicate _ b.m_pixels.length _ rfl
  | resize w hh => exact zeroPriInv_replicate _ (w * hh) _ rfl
  | insertTile x y p t ts =>
    exact zeroPriInv_insertTile b x y p t ts (by rw [hsz.1, hsz.2]) h
  | insertBlock x y p blk ts => exact zeroPriInv_insertBlock b x y p blk ts hsz h
  | getRGB _ => exact h
  | getAlpha _ _ _ => exact h
  | writePNG => exact h

lemma zeroPriInv_foldl (ops : List BufferOp) : ∀ (b : ImageBuffer),
    sizeInv b → zeroPriInv b → zeroPriInv (ops.foldl applyOp b) := by
  induction ops with
  | nil => exact fun b _ h => h
  | cons op ops ih =>
    intro b hsz h
    rw [List.foldl_cons]
    exact ih (applyOp b op) (sizeInv_applyOp b op hsz)
      (zeroPriInv_applyOp b op hsz h)

/-- C10: starting from a freshly constructed buffer, any sequence of
Clear, Resize, InsertTile and InsertBlock calls whose tileset bitmaps hold
only 4-bit values keeps the invariant that a zero pixel byte always sits
above a zero priority byte (a written pixel is always nonzero, so the
transparent value never carries a priority mark). -/
theorem zero_pixel_zero_priority_invariant (w h : Nat) (ops : List BufferOp)
    (hops : ∀ op ∈ ops, opDrawOnly op) :
    zeroPriInv (ops.foldl applyOp (ImageBuffer.init w h)) :=
  zeroPriInv_foldl ops (ImageBuffer.init w h) (sizeInv_init w h)
    (zeroPriInv_replicate _ (w * h) _ rfl)

/-- Witness for C10: a Clear followed by an in-range tile insertion with a
4-bit-clean tileset on a 9x9 buffer. -/
theorem zero_pixel_zero_priority_invariant_witness :
    (∀ op ∈ [BufferOp.clear, BufferOp.insertTile 0 0 1 wTile wTileset],
      opDrawOnly op) ∧
    zeroPriInv ([BufferOp.clear,
      BufferOp.insertTile 0 0 1 wTile wTileset].foldl applyOp
        (ImageBuffer.init 9 9)) :=
  ⟨by
    intro op hop
    rcases List.mem_cons.mp hop with hh | hop'
    · subst hh; exact trivial
    · rcases List.mem_cons.mp hop' with hh | hop''
      · subst hh
        intro t v hv
        rw [List.eq_of_mem_replicate hv]
        omega
      · exact absurd hop'' (List.not_mem_nil op),
    zero_pixel_zero_priority_invariant 9 9 _ (by
      intro op hop
      rcases List.mem_cons.mp hop with hh | hop'
      · subst hh; exact trivial
      · rcases List.mem_cons.mp hop' with hh | hop''
        · subst hh
          intro t v hv
          rw [List.eq_of_mem_replicate hv]
          omega
        · exact absurd hop'' (List.not_mem_nil op))⟩

lemma getAlpha_getD (b : ImageBuffer) (pals : List Palette) (low high : Nat)
    (i : Nat) (hi : i < b.m_pixels.length) (hi' : i < b.m_priority.length) :
    (b.GetAlpha pals low high).getD i 0 =
      min (if b.m_priority.getD i 0 ≠ 0 then high else low)
        ((pals.getD (b.m_pixels.getD i 0 >>> 4) Palette.blank).getA
          (b.m_pixels.getD i 0 &&& 15)) := by
  unfold ImageBuffer.GetAlpha
  have hzip : i < (b.m_pixels.zip b.m_priority).length := by
    rw [List.length_zip]; omega
  have hmap : i < ((b.m_pixels.zip b.m_priority).map (fun pp =>
      let alpha := (pals.getD (pp.1 >>> 4) Palette.blank).getA (pp.1 &&& 15)
      let max_opacity := if pp.2 ≠ 0 then high else low
      min max_opacity alpha)).length := by
    rw [List.length_map]; exact hzip
  rw [List.getD_eq_getElem _ _ hmap, List.getElem_map, List.getElem_zip,
    List.getD_eq_getElem _ _ hi, List.getD_eq_getElem _ _ hi']

/-- C6: under the class size invariant, `GetAlpha` returns exactly
`m_width * m_height` bytes, one per pixel in raster order; each byte is
the minimum of the palette alpha of the pixel (palette row from the high
nibble, local index from the low nibble) and the opacity ceiling selected
by that pixel's priority raster entry (`high_pri_max_opacity` when the
entry is nonzero, `low_pri_max_opacity` when zero); in particular the
value at a high-priority pixel never exceeds `high_pri_max_opacity`. -/
theorem getAlpha_spec (b : ImageBuffer) (pals : List Palette)
    (low high : Nat)
    (hpx : b.m_pixels.length = b.m_width * b.m_height)
    (hpr : b.m_priority.length = b.m_width * b.m_height) :
    (b.GetAlpha pals low high).length = b.m_width * b.m_height ∧
    (∀ i < b.m_width * b.m_height,
      (b.GetAlpha pals low high).getD i 0 =
        min (if b.m_priority.getD i 0 ≠ 0 then high else low)
          ((pals.getD (b.m_pixels.getD i 0 >>> 4) Palette.blank).getA
            (b.m_pixels.getD i 0 &&& 15))) ∧
    (∀ i < b.m_width * b.m_height, b.m_priority.getD i 0 ≠ 0 →
      (b.GetAlpha pals low high).getD i 0 ≤ high) := by
  refine ⟨?_, fun i hi => getAlpha_getD b pals low high i (by omega) (by omega),
    fun i hi hp => ?_⟩
  · unfold ImageBuffer.GetAlpha
    rw [List.length_map, List.length_zip]
    omega
  · rw [getAlpha_getD b pals low high i (by omega) (by omega), if_pos hp]
    exact min_le_left _ _

def wPalette : Palette :=
  { getR := fun i => 10 + i, getG := fun i => 20 + i, getB := fun i => 30 + i,
    getA := fun _ => 255 }

/-- Witness for C6 on a 2x1 buffer whose single high-priority pixel caps
a palette alpha of 255 down to the ceiling 100. -/
theorem getAlpha_spec_witness :
    ((ImageBuffer.mk 2 1 [0x21, 0] [1, 0]).m_pixels.length
        = (ImageBuffer.mk 2 1 [0x21, 0] [1, 0]).m_width
          * (ImageBuffer.mk 2 1 [0x21, 0] [1, 0]).m_height ∧
      (ImageBuffer.mk 2 1 [0x21, 0] [1, 0]).m_priority.length
        = (ImageBuffer.mk 2 1 [0x21, 0] [1, 0]).m_width
          * (ImageBuffer.mk 2 1 [0x21, 0] [1, 0]).m_height) ∧
    (((ImageBuffer.mk 2 1 [0x21, 0] [1, 0]).GetAlpha
        [wPalette, wPalette, wPalette] 200 100).length
        = (ImageBuffer.mk 2 1 [0x21, 0] [1, 0]).m_width
          * (ImageBuffer.mk 2 1 [0x21, 0] [1, 0]).m_height ∧
      (∀ i < (ImageBuffer.mk 2 1 [0x21, 0] [1, 0]).m_width
          * (ImageBuffer.mk 2 1 [0x21, 0] [1, 0]).m_height,
        ((ImageBuffer.mk 2 1 [0x21, 0] [1, 0]).GetAlpha
            [wPalette, wPalette, wPalette] 200 100).getD i 0 =
          min (if (ImageBuffer.mk 2 1 [0x21, 0] [1, 0]).m_priority.getD i 0
                ≠ 0 then 100 else 200)
            (([wPalette, wPalette, wPalette].getD
                ((ImageBuffer.mk 2 1 [0x21, 0] [1, 0]).m_pixels.getD i 0
                  >>> 4) Palette.blank).getA
              ((ImageBuffer.mk 2 1 [0x21, 0] [1, 0]).m_pixels.getD i 0
                &&& 15))) ∧
      (∀ i < (ImageBuffer.mk 2 1 [0x21, 0] [1, 0]).m_width
          * (ImageBuffer.mk 2 1 [0x21, 0] [1, 0]).m_height,
        (ImageBuffer.mk 2 1 [0x21, 0] [1, 0]).m_priority.getD i 0 ≠ 0 →
        ((ImageBuffer.mk 2 1 [0x21, 0] [1, 0]).GetAlpha
            [wPalette, wPalette, wPalette] 200 100).getD i 0 ≤ 100)) :=
  ⟨⟨by decide, by decide⟩,
    getAlpha_spec (ImageBuffer.mk 2 1 [0x21, 0] [1, 0])
      [wPalette, wPalette, wPalette] 200 100 (by decide) (by decide)⟩

lemma length_flatMap_triple (f : Nat → List Nat)
    (hf : ∀ v, (f v).length = 3) (l : List Nat) :
    (l.flatMap f).length = l.length * 3 := by
  induction l with
  | nil => rfl
  | cons a l ih =>
    rw [List.flatMap_cons, List.length_append, ih, hf, List.length_cons]
    ring

lemma getD_flatMap_triple (f : Nat → List Nat)
    (hf : ∀ v, (f v).length = 3) (l : List Nat) : ∀ (i j : Nat),
    i < l.length → j < 3 →
    (l.flatMap f).getD (3 * i + j) 0 = (f (l.getD i 0)).getD j 0 := by
  induction l with
  | nil => intro i j hi _; exact absurd hi (by simp)
  | cons a l ih =>
    intro i j hi hj
    rw [List.flatMap_cons]
    cases i with
    | zero =>
      rw [Nat.mul_zero, Nat.zero_add,
        List.getD_append _ _ _ _ (by rw [hf]; omega)]
      rfl
    | succ i =>
      rw [List.getD_append_right _ _ _ _ (by rw [hf]; omega)]
      have harith : 3 * (i + 1) + j - (f a).length = 3 * i + j := by
        rw [hf]; omega
      rw [harith, List.getD_cons_succ]
      exact ih i j (by simpa using hi) hj

/-- C7: under the class size invariant and a palette list covering every
palette row used in the buffer, `GetRGB` returns exactly
`m_width * m_height * 3` bytes: one RGB triplet per pixel in raster
order, the triplet of pixel byte `px` being the `getR`/`getG`/`getB`
entries of palette row `px >> 4` at local index `px & 0xF`. -/
theorem getRGB_spec (b : ImageBuffer) (pals : List Palette)
    (hpx : b.m_pixels.length = b.m_width * b.m_height)
    (hcov : ∀ px ∈ b.m_pixels, px >>> 4 < pals.length) :
    (b.GetRGB pals).length = b.m_width * b.m_height * 3 ∧
    ∀ i < b.m_width * b.m_height,
      (b.GetRGB pals).getD (3 * i) 0
        = (pals.getD (b.m_pixels.getD i 0 >>> 4) Palette.blank).getR
            (b.m_pixels.getD i 0 &&& 15) ∧
      (b.GetRGB pals).getD (3 * i + 1) 0
        = (pals.getD (b.m_pixels.getD i 0 >>> 4) Palette.blank).getG
            (b.m_pixels.getD i 0 &&& 15) ∧
      (b.GetRGB pals).getD (3 * i + 2) 0
        = (pals.getD (b.m_pixels.getD i 0 >>> 4) Palette.blank).getB
            (b.m_pixels.getD i 0 &&& 15) := by
  have hf : ∀ v : Nat,
      ([(pals.getD (v >>> 4) Palette.blank).getR (v &&& 15),
        (pals.getD (v >>> 4) Palette.blank).getG (v &&& 15),
        (pals.getD (v >>> 4) Palette.blank).getB (v &&& 15)]).length = 3 :=
    fun v => rfl
  constructor
  · unfold ImageBuffer.GetRGB
    rw [length_flatMap_triple _ hf, hpx]
  · intro i hi
    unfold ImageBuffer.GetRGB
    have h0 := getD_flatMap_triple _ hf b.m_pixels i 0 (by omega) (by omega)
    have h1 := getD_flatMap_triple _ hf b.m_pixels i 1 (by omega) (by omega)
    have h2 := getD_flatMap_triple _ hf b.m_pixels i 2 (by omega) (by omega)
    rw [Nat.add_zero] at h0
    exact ⟨h0, h1, h2⟩

/-- Witness for C7 on a 2x1 buffer using palette rows 0 and 2. -/
theorem getRGB_spec_witness :
    ((ImageBuffer.mk 2 1 [0x21, 3] []).m_pixels.length
        = (ImageBuffer.mk 2 1 [0x21, 3] []).m_width
          * (ImageBuffer.mk 2 1 [0x21, 3] []).m_height ∧
      (∀ px ∈ (ImageBuffer.mk 2 1 [0x21, 3] []).m_pixels,
        px >>> 4 < [wPalette, wPalette, wPalette].length)) ∧
    (((ImageBuffer.mk 2 1 [0x21, 3] []).GetRGB
        [wPalette, wPalette, wPalette]).length
        = (ImageBuffer.mk 2 1 [0x21, 3] []).m_width
          * (ImageBuffer.mk 2 1 [0x21, 3] []).m_height * 3 ∧
      ∀ i < (ImageBuffer.mk 2 1 [0x21, 3] []).m_width
          * (ImageBuffer.mk 2 1 [0x21, 3] []).m_height,
        ((ImageBuffer.mk 2 1 [0x21, 3] []).GetRGB
            [wPalette, wPalette, wPalette]).getD (3 * i) 0
          = ([wPalette, wPalette, wPalette].getD
              ((ImageBuffer.mk 2 1 [0x21, 3] []).m_pixels.getD i 0 >>> 4)
              Palette.blank).getR
              ((ImageBuffer.mk 2 1 [0x21, 3] []).m_pixels.getD i 0 &&& 15) ∧
        ((ImageBuffer.mk 2 1 [0x21, 3] []).GetRGB
            [wPalette, wPalette, wPalette]).getD (3 * i + 1) 0
          = ([wPalette, wPalette, wPalette].getD
              ((ImageBuffer.mk 2 1 [0x21, 3] []).m_pixels.getD i 0 >>> 4)
              Palette.blank).getG
              ((ImageBuffer.mk 2 1 [0x21, 3] []).m_pixels.getD i 0 &&& 15) ∧
        ((ImageBuffer.mk 2 1 [0x21, 3] []).GetRGB
            [wPalette, wPalette, wPalette]).getD (3 * i + 2) 0
          = ([wPalette, wPalette, wPalette].getD
              ((ImageBuffer.mk 2 1 [0x21, 3] []).m_pixels.getD i 0 >>> 4)
              Palette.blank).getB
              ((ImageBuffer.mk 2 1 [0x21, 3] []).m_pixels.getD i 0 &&& 15)) :=
  ⟨⟨by decide, by decide⟩,
    getRGB_spec (ImageBuffer.mk 2 1 [0x21, 3] [])
      [wPalette, wPalette, wPalette] (by decide) (by decide)⟩

/-- C3: with tileWidth = tileHeight = 16, for every in-grid tile
coordinate (0 <= x, 0 <= y < gridHeight) and every pixel offset
(dx, dy) in [0,16) x [0,16) inside the tile's 16x16 screen footprint,
`XYToTilePoint` applied to `ToXYPoint` of the tile (shifted by the
offset) returns the original tile coordinate; dx = dy = 0 is the exact
round trip `ScreenToTile (TileToScreen t) = t`. -/
theorem isometric_round_trip (m : BlockmapIsometric)
    (hTW : m.tileWidth = 16) (hTH : m.tileHeight = 16)
    (t : TilePoint) (hx : 0 ≤ t.x) (hy : 0 ≤ t.y)
    (hyH : t.y < (m.height : Int))
    (dx dy : Int) (hdx0 : 0 ≤ dx) (hdx : dx < 16)
    (hdy0 : 0 ≤ dy) (hdy : dy < 16) :
    m.XYToTilePoint ⟨(m.ToXYPoint t).x + dx, (m.ToXYPoint t).y + dy⟩ = t := by
  obtain ⟨tx, ty⟩ := t
  simp only at hx hy hyH
  unfold BlockmapIsometric.XYToTilePoint BlockmapIsometric.ToXYPoint
  simp only [hTW, hTH]
  push_cast
  rw [TilePoint.mk.injEq]
  rw [show (tx + ty) * (16:Int) = ((tx + ty) * 8) * 2 from by ring,
    Int.mul_tdiv_cancel _ (by norm_num)]
  rw [show (2 * ((tx + ty) * 8 + (m.top:Int) + dy - (m.top:Int))).tdiv 16
      = (2 * ((tx + ty) * 8 + (m.top:Int) + dy - (m.top:Int))) / 16
    from Int.tdiv_eq_ediv (by omega) (by norm_num)]
  rw [show ((tx - ty + ((m.height:Int) - 1)) * 16 + (m.left:Int) + dx
        - (m.left:Int)).tdiv 16
      = ((tx - ty + ((m.height:Int) - 1)) * 16 + (m.left:Int) + dx
        - (m.left:Int)) / 16
    from Int.tdiv_eq_ediv (by omega) (by norm_num)]
  rw [show ((2 * ((tx + ty) * 8 + (m.top:Int) + dy - (m.top:Int))) / 16
        + ((tx - ty + ((m.height:Int) - 1)) * 16 + (m.left:Int) + dx
          - (m.left:Int)) / 16 - (m.height:Int) + 1).tdiv 2
      = ((2 * ((tx + ty) * 8 + (m.top:Int) + dy - (m.top:Int))) / 16
        + ((tx - ty + ((m.height:Int) - 1)) * 16 + (m.left:Int) + dx
          - (m.left:Int)) / 16 - (m.height:Int) + 1) / 2
    from Int.tdiv_eq_ediv (by omega) (by norm_num)]
  rw [show ((2 * ((tx + ty) * 8 + (m.top:Int) + dy - (m.top:Int))) / 16
        - ((tx - ty + ((m.height:Int) - 1)) * 16 + (m.left:Int) + dx
          - (m.left:Int)) / 16 + (m.height:Int) - 1).tdiv 2
      = ((2 * ((tx + ty) * 8 + (m.top:Int) + dy - (m.top:Int))) / 16
        - ((tx - ty + ((m.height:Int) - 1)) * 16 + (m.left:Int) + dx
          - (m.left:Int)) / 16 + (m.height:Int) - 1) / 2
    from Int.tdiv_eq_ediv (by omega) (by norm_num)]
  constructor <;> omega

def wIso : BlockmapIsometric := ⟨10, 10, 0, 0, 16, 16⟩

/-- Witness for C3 at grid height 10, tile (3, 4), offset (0, 0). -/
theorem isometric_round_trip_witness :
    (wIso.tileWidth = 16 ∧ wIso.tileHeight = 16 ∧
      (0:Int) ≤ (⟨3, 4⟩ : TilePoint).x ∧ (0:Int) ≤ (⟨3, 4⟩ : TilePoint).y ∧
      (⟨3, 4⟩ : TilePoint).y < (wIso.height : Int)) ∧
    wIso.XYToTilePoint ⟨(wIso.ToXYPoint ⟨3, 4⟩).x + 0,
      (wIso.ToXYPoint ⟨3, 4⟩).y + 0⟩ = (⟨3, 4⟩ : TilePoint) :=
  ⟨⟨rfl, rfl, by decide, by decide, by decide⟩,
    isometric_round_trip wIso rfl rfl ⟨3, 4⟩ (by decide) (by decide)
      (by decide) 0 0 (by decide) (by decide) (by decide) (by decide)⟩

/-- C9: the horizontal screen coordinate of `ToXYPoint3D` coincides with
that of the 2-D `ToXYPoint` applied to (x, y) — the elevation z has no
effect on it — while the vertical coordinate equals
`(x + y - 2*z) * tileHeight / 2 + top` under C integer division. -/
theorem toXYPoint3D_relation (m : BlockmapIsometric) (p : TilePoint3D) :
    (m.ToXYPoint3D p).x = (m.ToXYPoint ⟨p.x, p.y⟩).x ∧
    (m.ToXYPoint3D p).y =
      Int.tdiv ((p.x + p.y - 2 * p.z) * (m.tileHeight : Int)) 2
        + (m.top : Int) := by
  refine ⟨rfl, ?_⟩
  unfold BlockmapIsometric.ToXYPoint3D
  rw [show p.x + p.y - p.z * 2 = p.x + p.y - 2 * p.z from by ring]
